import Mathlib

/-!
Shallow embedding of the repx metadata/query core (the `repx_py.models` and
`repx_py.visualize` modules). The repository ships only the package
`__init__.py` and the test suite; the core implementation file is absent, so
every definition below is modelled from the specification (spec.md), faithful
to its words, and cross-checked against the behaviours the tests exercise.
-/

set_option autoImplicit false

namespace Repx

/-- Filesystem paths are modelled as plain strings; joining inserts a single
separator, mirroring `pathlib`'s `/` operator on the documented examples. -/
abbrev Path := String

/-- Join two path components with a `/` separator. -/
def joinPath (a b : Path) : Path := a ++ "/" ++ b

/-- Decide whether a path is absolute: it starts with the separator. -/
def pathIsAbsolute (p : Path) : Bool :=
  match p.data with
  | [] => false
  | c :: _ => decide (c = '/')

/-- Resolve a path against a current working directory, as `Path.resolve`
does for the documented cases: an absolute path stays as is, a relative one
is anchored at the working directory. -/
def resolveAt (cwd p : Path) : Path :=
  if pathIsAbsolute p then p else joinPath cwd p

/-- Callers may pass either a path object or a raw string where a path is
expected ("path-or-string" in the spec); both denote the same path text. -/
inductive PathOrString where
  | path (p : Path)
  | str (s : String)
  deriving DecidableEq

/-- Normalize a path-or-string argument to a path. -/
def PathOrString.toPath : PathOrString → Path
  | .path p => p
  | .str s => s

/-- Parameter values are opaque scalar data. The claims under study only
exercise string and integer parameters, so the value universe carries those
two scalar kinds. -/
inductive Value where
  | str (s : String)
  | int (n : Int)
  deriving DecidableEq

/-- Association-list lookup keyed by strings: the first binding for the key
wins, mirroring dictionary lookup in the metadata documents. -/
def lookupList {α : Type} (k : String) : List (String × α) → Option α
  | [] => none
  | (k2, v) :: rest => if k = k2 then some v else lookupList k rest

/-- Modelled from the spec: `JobMetadata` record of the data model (missing
`models.py`): id, name, free-form stage classification, opaque params and the
named-output mapping of relative artifact names. -/
structure JobMetadata where
  id : String
  name : String
  stage_type : String
  params : List (String × Value)
  outputs : List (String × String)
  deriving DecidableEq

/-- Minimal job record carrying only an id, as the tests' `MockJob` /
`job_with_id` helpers do. -/
def jobWithId (i : String) : JobMetadata :=
  { id := i, name := "", stage_type := "", params := [], outputs := [] }

/-- Errors of the core's taxonomy (spec section 7), each carrying its
diagnostic message. -/
inductive RepxError where
  | notFound (msg : String)
  | invalidFormat (msg : String)
  | invalidConfiguration (msg : String)
  | attributeNotFound (msg : String)
  deriving DecidableEq

/-- Modelled from the spec: `LocalCacheResolver` (missing `models.py`)
holds a cache root directory resolved to an absolute path. -/
structure LocalCacheResolver where
  cache_dir : Path
  deriving DecidableEq

/-- Modelled from the spec: constructing a `LocalCacheResolver`, whose
`cache_dir` argument defaults to `.repx-cache` and is resolved to an absolute
path against the working directory; a string argument is accepted and
resolved the same way. -/
def LocalCacheResolver.make (cwd : Path) (cache_dir : Option PathOrString) :
    LocalCacheResolver :=
  { cache_dir := resolveAt cwd ((cache_dir.map PathOrString.toPath).getD ".repx-cache") }

/-- Modelled from the spec: `LocalCacheResolver.resolve_path job name =
cache_dir / job.id / "out" / name`; a pure path formula that never fails. -/
def LocalCacheResolver.resolve_path (r : LocalCacheResolver)
    (job : JobMetadata) (name : String) : Path :=
  joinPath (joinPath (joinPath r.cache_dir job.id) "out") name

/-- Modelled from the spec: `ManifestResolver` (missing `models.py`) holds an
explicit job-id to base-path mapping, every value already normalized to a
path. -/
structure ManifestResolver where
  mapping : List (String × Path)
  deriving DecidableEq

/-- Modelled from the spec: constructing a `ManifestResolver` normalizes
every base-path value of the given mapping to a path type. -/
def ManifestResolver.make (m : List (String × PathOrString)) : ManifestResolver :=
  { mapping := m.map (fun kv => (kv.1, kv.2.toPath)) }

/-- Modelled from the spec: `ManifestResolver.resolve_path job name =
mapping[job.id] / name`, failing with `NotFound` ("no output path recorded
for job", capitalized as the test suite checks) when `job.id` is absent. -/
def ManifestResolver.resolve_path (r : ManifestResolver)
    (job : JobMetadata) (name : String) : Except RepxError Path :=
  match lookupList job.id r.mapping with
  | some base => .ok (joinPath base name)
  | none => .error (.notFound ("No output path recorded for job " ++ job.id))

/-- Modelled from the spec: the `ArtifactResolver` capability with its two
concrete variants; `resolve_path` dispatches to the variant. -/
inductive ArtifactResolver where
  | local_cache (r : LocalCacheResolver)
  | manifest (r : ManifestResolver)
  deriving DecidableEq

/-- Polymorphic `resolve_path` of the capability: the local-cache variant
never fails, the manifest variant may report `NotFound`. -/
def ArtifactResolver.resolve_path : ArtifactResolver → JobMetadata → String →
    Except RepxError Path
  | .local_cache r, job, name => .ok (r.resolve_path job name)
  | .manifest r, job, name => r.resolve_path job name

/-- Modelled from the spec: `JobView`, the read-only facade over one job's
metadata record plus the injected resolver. The `ref` field models the
object's identity (its allocation token), so that Python's reference
equality `view1 is view2` becomes equality of views including `ref`. -/
structure JobView where
  ref : Nat
  job : JobMetadata
  resolver : ArtifactResolver
  deriving DecidableEq

/-- Dynamic field lookup on a job record: the fixed metadata attributes
(`id`, `name`, `stage_type`) first, then the params mapping as the explicit
fallback path. -/
def attrOf (jm : JobMetadata) (name : String) : Option Value :=
  if name = "id" then some (.str jm.id)
  else if name = "name" then some (.str jm.name)
  else if name = "stage_type" then some (.str jm.stage_type)
  else lookupList name jm.params

/-- Modelled from the spec: dynamic attribute access on a `JobView`; a name
that resolves to nothing defined fails with `AttributeNotFound` naming the
missing attribute (the tests check the phrase "has no attribute"). -/
def JobView.getattr (v : JobView) (name : String) : Except RepxError Value :=
  match attrOf v.job name with
  | some a => .ok a
  | none => .error (.attributeNotFound ("JobView has no attribute " ++ name))

/-- Modelled from the spec: `get_output_path key` looks `key` up in the
job's outputs, fails with `NotFound` ("output key not found") when absent,
and otherwise delegates to the injected resolver's `resolve_path` with the
recorded relative name. -/
def JobView.get_output_path (v : JobView) (key : String) : Except RepxError Path :=
  match lookupList key v.job.outputs with
  | some rel => v.resolver.resolve_path v.job rel
  | none => .error (.notFound ("Output key " ++ key ++ " not found"))

/-- Modelled from the spec: `RunMetadata`, a named run with its job-id to
job-record mapping, immutable after load. -/
structure RunMetadata where
  name : String
  jobs : List (String × JobMetadata)
  deriving DecidableEq

/-- Modelled from the spec: `Experiment` aggregates the loaded runs, the
injected resolver, and the identity-preserving `job_id -> JobView` cache.
The `nextRef` counter supplies fresh identity tokens for newly constructed
views, modelling object allocation. -/
structure Experiment where
  runsMap : List (String × RunMetadata)
  resolver : ArtifactResolver
  cache : List (String × JobView)
  nextRef : Nat
  deriving DecidableEq

/-- All jobs of all loaded runs, keyed by job id, in discovery order. -/
def Experiment.jobsIndex (e : Experiment) : List (String × JobMetadata) :=
  (e.runsMap.map (fun r => r.2.jobs)).flatten

/-- Modelled from the spec: `runs()` returns the mapping of run name to run
record (empty when nothing is loaded, never failing). -/
def Experiment.runs (e : Experiment) : List (String × RunMetadata) :=
  e.runsMap

/-- Modelled from the spec: `get_job id` returns the cached view when one
exists; otherwise it constructs the view for a known job id, stores it in
the Experiment-owned cache and returns it; an unknown id fails with
`NotFound`. State passing makes the cache write of the first call explicit:
the call returns the view together with the (possibly updated) experiment. -/
def Experiment.get_job (e : Experiment) (id : String) :
    Except RepxError (JobView × Experiment) :=
  match lookupList id e.cache with
  | some v => .ok (v, e)
  | none =>
    match lookupList id e.jobsIndex with
    | some jm =>
      let v : JobView := { ref := e.nextRef, job := jm, resolver := e.resolver }
      .ok (v, { e with cache := (id, v) :: e.cache, nextRef := e.nextRef + 1 })
    | none => .error (.notFound ("Job " ++ id ++ " not found"))

/-- Modelled from the spec: a metadata document as consumed by
`Experiment.from_run_metadata` — a declared type marker, a run name and the
jobs mapping. -/
structure Doc where
  type : String
  name : String
  jobs : List (String × JobMetadata)
  deriving DecidableEq

/-- Modelled from the spec: `Experiment.from_run_metadata path root` loads
the document at `path`: it fails with `NotFound` when the file is absent and
with `InvalidFormat` when the document's declared type is not "run" (naming
the expected and the actual type); otherwise the loaded run is indexed under
its name and artifact paths resolve under `root`. The filesystem is passed
explicitly as a mapping from path to parsed document. -/
def Experiment.from_run_metadata (fs : List (Path × Doc)) (path root : Path) :
    Except RepxError Experiment :=
  match lookupList path fs with
  | none => .error (.notFound ("Metadata file not found: " ++ path))
  | some doc =>
    if doc.type = "run" then
      .ok { runsMap := [(doc.name, { name := doc.name, jobs := doc.jobs })],
            resolver := .local_cache { cache_dir := root },
            cache := [], nextRef := 0 }
    else
      .error (.invalidFormat
        ("Expected metadata type run, got " ++ doc.type))

/-- Modelled from the spec: `JobCollection`, an ordered immutable-by-value
sequence of job ids; view materialization goes through the owning
experiment, which the operations receive explicitly. -/
structure JobCollection where
  ids : List String
  deriving DecidableEq

/-- Number of ids held by a collection. -/
def JobCollection.size (c : JobCollection) : Nat := c.ids.length

/-- Split a filter keyword once from the left at the `__` separator,
returning the field part and, when a separator occurs, the operator
suffix. -/
def splitKeyOnceAux : List Char → Option (List Char × List Char)
  | [] => none
  | '_' :: '_' :: rest => some ([], rest)
  | c :: rest =>
    match splitKeyOnceAux rest with
    | some (pre, post) => some (c :: pre, post)
    | none => none

/-- Parse a filter keyword into its field and optional operator suffix. -/
def splitKeyOnce (k : String) : String × Option String :=
  match splitKeyOnceAux k.data with
  | some (f, op) => (String.mk f, some (String.mk op))
  | none => (k, none)

/-- Decide whether `sub` occurs as a contiguous sublist of `l`. -/
def listIsInfix (sub : List Char) : List Char → Bool
  | [] => sub.isEmpty
  | c :: rest => sub.isPrefixOf (c :: rest) || listIsInfix sub rest

/-- Substring test on strings. -/
def strContains (hay sub : String) : Bool := listIsInfix sub.data hay.data

/-- Membership/substring test of the `contains` filter operator. -/
def valueContains (a v : Value) : Bool :=
  match a, v with
  | .str s, .str sub => strContains s sub
  | _, _ => false

/-- Strict order on values, defined within each scalar kind. -/
def valueLt : Value → Value → Bool
  | .int a, .int b => decide (a < b)
  | .str a, .str b => decide (a < b)
  | _, _ => false

/-- Non-strict order on values, defined within each scalar kind. -/
def valueLe : Value → Value → Bool
  | .int a, .int b => decide (a ≤ b)
  | .str a, .str b => decide (a ≤ b)
  | _, _ => false

/-- Operator suffixes the filter DSL recognizes. -/
def recognizedOps : List String := ["contains", "gt", "lt", "gte", "lte"]

/-- Apply a recognized operator to an attribute value and the filter
argument. -/
def applyOp (op : String) (a v : Value) : Bool :=
  if op = "contains" then valueContains a v
  else if op = "gt" then valueLt v a
  else if op = "lt" then valueLt a v
  else if op = "gte" then valueLe v a
  else if op = "lte" then valueLe a v
  else false

/-- Modelled from the spec: one keyword predicate of the filter DSL applied
to a job record. A bare key is an equality test; a recognized operator
suffix applies that operator to the field's value; an unrecognized suffix
degrades to an equality test against the attribute named by the full
key-with-suffix. A job lacking the tested attribute does not match. -/
def applyPred (jm : JobMetadata) (key : String) (v : Value) : Bool :=
  match splitKeyOnce key with
  | (field, some op) =>
    if decide (op ∈ recognizedOps) then
      match attrOf jm field with
      | some a => applyOp op a v
      | none => false
    else
      match attrOf jm key with
      | some a => decide (a = v)
      | none => false
  | (_, none) =>
    match attrOf jm key with
    | some a => decide (a = v)
    | none => false

/-- Decide whether the job behind `id` satisfies every predicate of one
filter call (logical AND); ids without a job record never match. -/
def collMatches (e : Experiment) (ps : List (String × Value)) (id : String) : Bool :=
  match lookupList id e.jobsIndex with
  | some jm => ps.all (fun p => applyPred jm p.1 p.2)
  | none => false

/-- Modelled from the spec: `JobCollection.filter` keeps, in order, exactly
the ids whose job satisfies every supplied predicate, producing a new
collection and leaving the receiver untouched. -/
def JobCollection.filter (c : JobCollection) (e : Experiment)
    (ps : List (String × Value)) : JobCollection :=
  { ids := c.ids.filter (collMatches e ps) }

/-- Equality filter on the literal full key, written after the spec's words
for the unrecognized-operator fallback: a job matches exactly when its
attribute named by the full key-with-suffix equals the value. -/
def eqFilterSpec (c : JobCollection) (e : Experiment) (key : String) (v : Value) :
    JobCollection :=
  { ids := c.ids.filter (fun id =>
      match lookupList id e.jobsIndex with
      | some jm =>
        match attrOf jm key with
        | some a => decide (a = v)
        | none => false
      | none => false) }

/-- Collection over all known job ids of an experiment, discovery order. -/
def Experiment.jobs (e : Experiment) : JobCollection :=
  { ids := e.jobsIndex.map (fun p => p.1) }

/-- Tabular export target: a column list and one row of per-column optional
values for every job. -/
structure DataFrame where
  columns : List String
  rows : List (List (Option Value))
  deriving DecidableEq

/-- Modelled from the spec: `to_dataframe` flattens every held job into one
row with a column per top-level field and per parameter key encountered
across the collection; an empty collection yields zero rows (and zero
columns, no jobs being present) instead of failing. -/
def JobCollection.to_dataframe (c : JobCollection) (e : Experiment) : DataFrame :=
  let recs := c.ids.filterMap (fun id => lookupList id e.jobsIndex)
  let paramKeys := ((recs.map (fun jm => jm.params.map (fun p => p.1))).flatten).dedup
  let cols := if recs.isEmpty then [] else ["id", "name", "stage_type"] ++ paramKeys
  { columns := cols,
    rows := recs.map (fun jm => cols.map (fun cname => attrOf jm cname)) }

/-- Keys of every parameter occurrence across a sequence of jobs, in
observation order. -/
def paramKeysOf (jobs : List JobMetadata) : List String :=
  (jobs.map (fun j => j.params.map (fun p => p.1))).flatten

/-- Values observed for one parameter key across a sequence of jobs,
skipping jobs in which the key is absent. -/
def observedValues (k : String) (jobs : List JobMetadata) : List Value :=
  jobs.filterMap (fun j => lookupList k j.params)

/-- Modelled from the spec: the visualization helper (missing
`visualize.py`) that maps every parameter key observed across a sequence of
job views to the distinct values observed for it, omitting jobs where the
parameter is absent. -/
def get_varying_params (jobs : List JobMetadata) : List (String × List Value) :=
  (paramKeysOf jobs).dedup.map (fun k => (k, (observedValues k jobs).dedup))

/-! Concrete fixtures used by the witness theorems. -/

/-- Fixture job record with one parameter and one named output. -/
def jmW : JobMetadata :=
  { id := "j1", name := "job-one", stage_type := "simple",
    params := [("x", Value.int 1)], outputs := [("main", "out.csv")] }

/-- Fixture resolver. -/
def resolverW : ArtifactResolver := .local_cache { cache_dir := "/tmp/cache" }

/-- Fixture experiment holding one run with one job and an empty cache. -/
def expW : Experiment :=
  { runsMap := [("run1", { name := "run1", jobs := [("j1", jmW)] })],
    resolver := resolverW, cache := [], nextRef := 0 }

/-- View that `expW.get_job "j1"` constructs on its first call. -/
def viewW : JobView := { ref := 0, job := jmW, resolver := resolverW }

/-- Experiment state after the first `get_job "j1"` call on `expW`. -/
def expW1 : Experiment := { expW with cache := [("j1", viewW)], nextRef := 1 }

/-! Helper lemmas about association-list lookup. -/

theorem lookupList_map_self {α : Type} (f : String → α) (k : String)
    (l : List String) :
    lookupList k (l.map (fun x => (x, f x))) = if k ∈ l then some (f k) else none := by
  induction l with
  | nil => rfl
  | cons x rest ih =>
    simp only [List.map_cons, lookupList, List.mem_cons]
    by_cases hx : k = x
    · subst hx; simp
    · simp [hx, ih]

theorem lookupList_ne_none_iff {α : Type} (k : String) (l : List (String × α)) :
    lookupList k l ≠ none ↔ ∃ p ∈ l, p.1 = k := by
  induction l with
  | nil => simp [lookupList]
  | cons p rest ih =>
    obtain ⟨k2, v⟩ := p
    simp only [lookupList, List.mem_cons]
    by_cases h : k = k2
    · subst h; simp
    · simp only [if_neg h, ih]
      constructor
      · rintro ⟨q, hq, hq1⟩
        exact ⟨q, Or.inr hq, hq1⟩
      · rintro ⟨q, hq | hq, hq1⟩
        · subst hq; exact absurd hq1.symm h
        · exact ⟨q, hq, hq1⟩

theorem lookupList_map_value {α β : Type} (g : α → β) (k : String)
    (l : List (String × α)) :
    lookupList k (l.map (fun kv => (kv.1, g kv.2))) = (lookupList k l).map g := by
  induction l with
  | nil => rfl
  | cons p rest ih =>
    obtain ⟨k2, v⟩ := p
    simp only [List.map_cons, lookupList]
    by_cases h : k = k2
    · simp [h]
    · simp [h, ih]

/-- Resolving any path against an absolute working directory yields an
absolute path. -/
theorem pathIsAbsolute_resolveAt (cwd p : Path) (h : pathIsAbsolute cwd = true) :
    pathIsAbsolute (resolveAt cwd p) = true := by
  unfold resolveAt
  by_cases hp : pathIsAbsolute p = true
  · simp [hp]
  · simp only [hp, Bool.false_eq_true, if_false]
    unfold pathIsAbsolute at h ⊢
    unfold joinPath
    cases hd : cwd.data with
    | nil => rw [hd] at h; exact absurd h (by simp)
    | cons c t =>
      rw [hd] at h
      have hdata : (cwd ++ "/" ++ p).data = c :: (t ++ "/".data ++ p.data) := by
        rw [String.data_append, String.data_append, hd]
        simp
      rw [hdata]
      exact h

/-- C1: on one experiment, two successive `get_job` calls with the same id
return the identical view object (same identity token, hence the same cached
object); the second call leaves the experiment unchanged, the view sits in
the cache after the first call, and a first call on a cold cache is the one
that stores it. -/
theorem get_job_identity_cached (e : Experiment) (id : String)
    (v1 v2 : JobView) (e1 e2 : Experiment)
    (h1 : e.get_job id = .ok (v1, e1))
    (h2 : e1.get_job id = .ok (v2, e2)) :
    v1 = v2 ∧ e2 = e1 ∧ lookupList id e1.cache = some v1 ∧
      (lookupList id e.cache = none → e1.cache = (id, v1) :: e.cache) := by
  cases hc : lookupList id e.cache with
  | some v =>
    simp only [Experiment.get_job, hc, Except.ok.injEq, Prod.mk.injEq] at h1
    obtain ⟨hv, he⟩ := h1
    subst hv; subst he
    simp only [Experiment.get_job, hc, Except.ok.injEq, Prod.mk.injEq] at h2
    obtain ⟨hv2, he2⟩ := h2
    subst hv2; subst he2
    simp [hc]
  | none =>
    simp only [Experiment.get_job, hc] at h1
    cases hj : lookupList id e.jobsIndex with
    | none => simp [hj] at h1
    | some jm =>
      simp only [hj, Except.ok.injEq, Prod.mk.injEq] at h1
      obtain ⟨hv, he⟩ := h1
      subst hv; subst he
      have hcache : lookupList id
          ((id, ({ ref := e.nextRef, job := jm, resolver := e.resolver } : JobView))
            :: e.cache) =
          some { ref := e.nextRef, job := jm, resolver := e.resolver } := by
        simp [lookupList]
      simp only [Experiment.get_job] at h2
      simp only [hcache, Except.ok.injEq, Prod.mk.injEq] at h2
      obtain ⟨hv2, he2⟩ := h2
      subst hv2; subst he2
      exact ⟨rfl, rfl, hcache, fun _ => rfl⟩

/-- Witness for C1 at a concrete experiment: the first call constructs and
caches the view, the second returns it unchanged. -/
theorem get_job_identity_cached_witness :
    expW.get_job "j1" = Except.ok (viewW, expW1) ∧
    expW1.get_job "j1" = Except.ok (viewW, expW1) ∧
    (viewW = viewW ∧ expW1 = expW1 ∧ lookupList "j1" expW1.cache = some viewW ∧
      (lookupList "j1" expW.cache = none → expW1.cache = ("j1", viewW) :: expW.cache)) :=
  ⟨rfl, rfl, get_job_identity_cached expW "j1" viewW viewW expW1 expW1 rfl rfl⟩

/-- C4: `LocalCacheResolver.resolve_path` is total and equals exactly
`cache_dir / job.id / "out" / name`; on the documented literal input the
base `/tmp/x` with job id `j1` and name `out.csv` yields
`/tmp/x/j1/out/out.csv`; construction without an argument defaults the cache
directory to `.repx-cache` resolved against the working directory to an
absolute path, and any explicitly given path-or-string argument is resolved
to an absolute path as well. -/
theorem localCacheResolver_resolve_path_spec (cwd : Path) (arg : PathOrString)
    (r : LocalCacheResolver) (job : JobMetadata) (name : String)
    (habs : pathIsAbsolute cwd = true) :
    r.resolve_path job name
      = joinPath (joinPath (joinPath r.cache_dir job.id) "out") name ∧
    LocalCacheResolver.resolve_path { cache_dir := "/tmp/x" } (jobWithId "j1") "out.csv"
      = "/tmp/x/j1/out/out.csv" ∧
    (LocalCacheResolver.make cwd none).cache_dir = resolveAt cwd ".repx-cache" ∧
    pathIsAbsolute (LocalCacheResolver.make cwd none).cache_dir = true ∧
    pathIsAbsolute (LocalCacheResolver.make cwd (some arg)).cache_dir = true := by
  refine ⟨rfl, by decide, rfl, ?_, ?_⟩
  · exact pathIsAbsolute_resolveAt cwd ".repx-cache" habs
  · exact pathIsAbsolute_resolveAt cwd arg.toPath habs

/-- Witness for C4 at a concrete absolute working directory and a concrete
string argument. -/
theorem localCacheResolver_resolve_path_spec_witness :
    pathIsAbsolute "/home/user" = true ∧
    (LocalCacheResolver.resolve_path { cache_dir := "/tmp/base" } jmW "data.csv"
        = joinPath (joinPath (joinPath "/tmp/base" jmW.id) "out") "data.csv" ∧
      LocalCacheResolver.resolve_path { cache_dir := "/tmp/x" } (jobWithId "j1") "out.csv"
        = "/tmp/x/j1/out/out.csv" ∧
      (LocalCacheResolver.make "/home/user" none).cache_dir
        = resolveAt "/home/user" ".repx-cache" ∧
      pathIsAbsolute (LocalCacheResolver.make "/home/user" none).cache_dir = true ∧
      pathIsAbsolute
        (LocalCacheResolver.make "/home/user" (some (.str "rel/dir"))).cache_dir = true) :=
  ⟨by decide,
    localCacheResolver_resolve_path_spec "/home/user" (.str "rel/dir")
      { cache_dir := "/tmp/base" } jmW "data.csv" (by decide)⟩

/-- C5: constructing a `ManifestResolver` normalizes every base-path value
to a path type (lookup through the constructed mapping is lookup through
the input followed by normalization); `resolve_path` returns
`mapping[job.id] / name` when the job's id is a key of the mapping and
fails with `NotFound` ("no output path recorded for job") when it is
absent, whatever the output name argument. -/
theorem manifestResolver_spec (m : List (String × PathOrString)) (k : String)
    (r : ManifestResolver) (job : JobMetadata) (name : String) :
    lookupList k (ManifestResolver.make m).mapping
      = (lookupList k m).map PathOrString.toPath ∧
    (∀ base, lookupList job.id r.mapping = some base →
      r.resolve_path job name = .ok (joinPath base name)) ∧
    (lookupList job.id r.mapping = none →
      r.resolve_path job name
        = .error (.notFound ("No output path recorded for job " ++ job.id))) := by
  refine ⟨?_, ?_, ?_⟩
  · unfold ManifestResolver.make
    exact lookupList_map_value PathOrString.toPath k m
  · intro base hb
    unfold ManifestResolver.resolve_path
    rw [hb]
  · intro hb
    unfold ManifestResolver.resolve_path
    rw [hb]

/-- Fixture manifest mapping holding a base path for job `j1` only. -/
def mW : List (String × PathOrString) := [("j1", .str "/a/b")]

/-- Witness for C5 on the documented literal mapping: the value is
normalized, `j1` resolves to `/a/b/f.txt`, and the absent id `j2` fails
with `NotFound`. -/
theorem manifestResolver_spec_witness :
    lookupList "j1" (ManifestResolver.make mW).mapping
      = (lookupList "j1" mW).map PathOrString.toPath ∧
    (ManifestResolver.make mW).resolve_path (jobWithId "j1") "f.txt"
      = .ok (joinPath "/a/b" "f.txt") ∧
    (ManifestResolver.make mW).resolve_path (jobWithId "j2") "f.txt"
      = .error (.notFound ("No output path recorded for job " ++ (jobWithId "j2").id)) :=
  ⟨(manifestResolver_spec mW "j1" (ManifestResolver.make mW) (jobWithId "j1") "f.txt").1,
   (manifestResolver_spec mW "j1" (ManifestResolver.make mW)
      (jobWithId "j1") "f.txt").2.1 "/a/b" (by decide),
   (manifestResolver_spec mW "j1" (ManifestResolver.make mW)
      (jobWithId "j2") "f.txt").2.2 (by decide)⟩

/-- C6: `from_run_metadata` fails with `NotFound` when no file exists at
the path; fails with `InvalidFormat` naming the expected type `run` and the
actual type when the loaded document's type field differs; and succeeds on
a document whose type is `run`, after which the document's run name is a
key of the experiment's `runs()` mapping. -/
theorem from_run_metadata_spec (fs : List (Path × Doc)) (path root : Path)
    (doc : Doc) :
    (lookupList path fs = none →
      Experiment.from_run_metadata fs path root
        = .error (.notFound ("Metadata file not found: " ++ path))) ∧
    (lookupList path fs = some doc → doc.type ≠ "run" →
      Experiment.from_run_metadata fs path root
        = .error (.invalidFormat ("Expected metadata type run, got " ++ doc.type))) ∧
    (lookupList path fs = some doc → doc.type = "run" →
      ∃ e, Experiment.from_run_metadata fs path root = .ok e ∧
        lookupList doc.name e.runs = some { name := doc.name, jobs := doc.jobs }) := by
  refine ⟨?_, ?_, ?_⟩
  · intro h
    unfold Experiment.from_run_metadata
    rw [h]
  · intro h ht
    unfold Experiment.from_run_metadata
    rw [h]
    simp [ht]
  · intro h ht
    unfold Experiment.from_run_metadata
    rw [h]
    simp only [ht, if_pos rfl]
    exact ⟨_, rfl, by simp [Experiment.runs, lookupList]⟩

/-- Fixture well-formed run document. -/
def docW : Doc := { type := "run", name := "test-run", jobs := [] }

/-- Fixture document with a wrong type marker. -/
def badDocW : Doc := { type := "not_a_run", name := "test", jobs := [] }

/-- Fixture filesystem holding the two documents. -/
def fsW : List (Path × Doc) := [("/lab/run.json", docW), ("/lab/bad.json", badDocW)]

/-- Witness for C6 on a concrete filesystem: the missing file, the wrongly
typed document and the minimal well-formed document each behave as
claimed. -/
theorem from_run_metadata_spec_witness :
    Experiment.from_run_metadata fsW "/lab/none.json" "/lab"
      = .error (.notFound ("Metadata file not found: " ++ "/lab/none.json")) ∧
    Experiment.from_run_metadata fsW "/lab/bad.json" "/lab"
      = .error (.invalidFormat ("Expected metadata type run, got " ++ badDocW.type)) ∧
    ∃ e, Experiment.from_run_metadata fsW "/lab/run.json" "/lab" = .ok e ∧
      lookupList "test-run" e.runs = some { name := "test-run", jobs := [] } :=
  ⟨(from_run_metadata_spec fsW "/lab/none.json" "/lab" docW).1 (by decide),
   (from_run_metadata_spec fsW "/lab/bad.json" "/lab" badDocW).2.1 (by decide) (by decide),
   (from_run_metadata_spec fsW "/lab/run.json" "/lab" docW).2.2 (by decide) (by decide)⟩

/-- C7: dynamic field access on a `JobView` for a name that is neither a
fixed metadata attribute nor a params key fails with `AttributeNotFound`
naming the attribute; and `get_output_path` delegates to the injected
resolver's `resolve_path` exactly when the key is in the job's outputs,
failing with `NotFound` ("output key not found") exactly when it is
absent. -/
theorem jobView_access_spec (v : JobView) (name key : String)
    (h1 : name ≠ "id") (h2 : name ≠ "name") (h3 : name ≠ "stage_type")
    (h4 : lookupList name v.job.params = none) :
    v.getattr name
      = .error (.attributeNotFound ("JobView has no attribute " ++ name)) ∧
    ((∃ rel, lookupList key v.job.outputs = some rel ∧
        v.get_output_path key = v.resolver.resolve_path v.job rel) ∨
      (lookupList key v.job.outputs = none ∧
        v.get_output_path key
          = .error (.notFound ("Output key " ++ key ++ " not found")))) := by
  constructor
  · unfold JobView.getattr attrOf
    simp [h1, h2, h3, h4]
  · unfold JobView.get_output_path
    cases ho : lookupList key v.job.outputs with
    | some rel => exact Or.inl ⟨rel, rfl, rfl⟩
    | none => exact Or.inr ⟨rfl, rfl⟩

/-- Witness for C7 on the fixture view: the unknown attribute `zzz` fails
and the unknown output key `nope` reports `NotFound`. -/
theorem jobView_access_spec_witness :
    viewW.getattr "zzz"
      = .error (.attributeNotFound ("JobView has no attribute " ++ "zzz")) ∧
    ((∃ rel, lookupList "nope" viewW.job.outputs = some rel ∧
        viewW.get_output_path "nope" = viewW.resolver.resolve_path viewW.job rel) ∨
      (lookupList "nope" viewW.job.outputs = none ∧
        viewW.get_output_path "nope"
          = .error (.notFound ("Output key " ++ "nope" ++ " not found")))) :=
  jobView_access_spec viewW "zzz" "nope" (by decide) (by decide) (by decide) (by decide)

/-- C2: a filter keyword whose suffix after the `__` separator is not a
recognized operator behaves exactly as an equality filter on the literal
full key-with-suffix — same ids, same order, no failure (the function is
total): a job matches only when the attribute named by the full key equals
the value. -/
theorem filter_unknown_op_eq_equality (e : Experiment) (c : JobCollection)
    (key field op : String) (v : Value)
    (hsplit : splitKeyOnce key = (field, some op))
    (hop : op ∉ recognizedOps) :
    c.filter e [(key, v)] = eqFilterSpec c e key v := by
  unfold JobCollection.filter eqFilterSpec
  congr 1
  apply List.filter_congr
  intro id _
  unfold collMatches
  cases lookupList id e.jobsIndex with
  | none => rfl
  | some jm =>
    simp only [List.all_cons, List.all_nil, Bool.and_true]
    unfold applyPred
    rw [hsplit]
    simp [decide_eq_false hop]

/-- Witness for C2: filtering the fixture experiment's jobs with the
keyword `name__unknownop` equals the literal-key equality filter. -/
theorem filter_unknown_op_eq_equality_witness :
    splitKeyOnce "name__unknownop" = ("name", some "unknownop") ∧
    "unknownop" ∉ recognizedOps ∧
    expW.jobs.filter expW [("name__unknownop", Value.str "value")]
      = eqFilterSpec expW.jobs expW "name__unknownop" (Value.str "value") :=
  ⟨by decide, by decide,
    filter_unknown_op_eq_equality expW expW.jobs "name__unknownop" "name" "unknownop"
      (Value.str "value") (by decide) (by decide)⟩

/-- C3: filtering never grows a collection (`size` of the result is at most
the receiver's), returns the whole id sequence when every element matches,
builds the new collection from the receiver's unchanged id sequence, keeps
exactly the ids whose job satisfies the conjunction of all supplied
predicates (logical AND), and is total, so an empty result is an ordinary
value. -/
theorem filter_and_semantics (e : Experiment) (c : JobCollection)
    (ps : List (String × Value)) :
    (c.filter e ps).size ≤ c.size ∧
    ((∀ id ∈ c.ids, collMatches e ps id = true) → (c.filter e ps).ids = c.ids) ∧
    (c.filter e ps).ids = c.ids.filter (collMatches e ps) ∧
    (∀ id, id ∈ (c.filter e ps).ids ↔ id ∈ c.ids ∧ collMatches e ps id = true) ∧
    (∀ jm id, lookupList id e.jobsIndex = some jm →
      (collMatches e ps id = true ↔ ∀ p ∈ ps, applyPred jm p.1 p.2 = true)) := by
  refine ⟨List.length_filter_le _ _, ?_, rfl, ?_, ?_⟩
  · intro hall
    unfold JobCollection.filter
    simpa using List.filter_eq_self.mpr hall
  · intro id
    unfold JobCollection.filter
    simp [List.mem_filter]
  · intro jm id h
    unfold collMatches
    rw [h]
    simp [List.all_eq_true]

/-- Witness for C3 on the fixture experiment: a predicate every job
satisfies keeps the full id sequence, and the size bound holds. -/
theorem filter_and_semantics_witness :
    (expW.jobs.filter expW [("stage_type", Value.str "simple")]).size
      ≤ expW.jobs.size ∧
    (expW.jobs.filter expW [("stage_type", Value.str "simple")]).ids
      = expW.jobs.ids :=
  ⟨(filter_and_semantics expW expW.jobs [("stage_type", Value.str "simple")]).1,
   (filter_and_semantics expW expW.jobs [("stage_type", Value.str "simple")]).2.1
     (by decide)⟩

/-- C8: `to_dataframe` on an empty collection is an ordinary total
computation producing a valid empty tabular result: zero rows (and zero
columns, no job being present to detect columns from), with every row —
vacuously — as wide as the column list. -/
theorem to_dataframe_empty_ok (e : Experiment) (c : JobCollection)
    (h : c.ids = []) :
    (c.to_dataframe e).rows = [] ∧ (c.to_dataframe e).columns = [] ∧
    ∀ row ∈ (c.to_dataframe e).rows,
      row.length = (c.to_dataframe e).columns.length := by
  unfold JobCollection.to_dataframe
  rw [h]
  simp

/-- Witness for C8 at the concrete empty collection over the fixture
experiment. -/
theorem to_dataframe_empty_ok_witness :
    (JobCollection.to_dataframe { ids := [] } expW).rows = [] ∧
    (JobCollection.to_dataframe { ids := [] } expW).columns = [] ∧
    ∀ row ∈ (JobCollection.to_dataframe { ids := [] } expW).rows,
      row.length = (JobCollection.to_dataframe { ids := [] } expW).columns.length :=
  to_dataframe_empty_ok expW { ids := [] } rfl

/-- C9: whenever the varying-parameters helper holds an entry for a key,
that entry's value list has no duplicates and contains exactly the values
observed for the key across the jobs that carry it — a job lacking the
parameter contributes nothing (no placeholder value can enter the list). -/
theorem get_varying_params_values (jobs : List JobMetadata) (k : String)
    (vs : List Value) (h : lookupList k (get_varying_params jobs) = some vs) :
    vs.Nodup ∧ ∀ v : Value, v ∈ vs ↔ ∃ j ∈ jobs, lookupList k j.params = some v := by
  unfold get_varying_params at h
  rw [lookupList_map_self] at h
  by_cases hk : k ∈ (paramKeysOf jobs).dedup
  · rw [if_pos hk, Option.some.injEq] at h
    subst h
    refine ⟨List.nodup_dedup _, ?_⟩
    intro v
    rw [List.mem_dedup]
    unfold observedValues
    rw [List.mem_filterMap]
  · rw [if_neg hk] at h
    exact absurd h (by simp)

/-- Second fixture job, sharing the parameter key `x` with a distinct
value. -/
def jmW2 : JobMetadata :=
  { id := "j2", name := "job-two", stage_type := "simple",
    params := [("x", Value.int 2)], outputs := [] }

/-- Third fixture job, carrying no parameters at all. -/
def jmW3 : JobMetadata :=
  { id := "j3", name := "job-three", stage_type := "simple",
    params := [], outputs := [] }

/-- Witness for C9: across two jobs with distinct `x` values and one job
without `x`, the helper records exactly the two observed values. -/
theorem get_varying_params_values_witness :
    lookupList "x" (get_varying_params [jmW, jmW2, jmW3])
      = some [Value.int 1, Value.int 2] ∧
    (([Value.int 1, Value.int 2] : List Value).Nodup ∧
      ∀ v : Value, v ∈ ([Value.int 1, Value.int 2] : List Value) ↔
        ∃ j ∈ [jmW, jmW2, jmW3], lookupList "x" j.params = some v) :=
  ⟨by decide,
    get_varying_params_values [jmW, jmW2, jmW3] "x" [Value.int 1, Value.int 2]
      (by decide)⟩

/-- C10: the key set of the varying-parameters helper's result is exactly
the set of parameter keys appearing in at least one input job — a key
present with the same value everywhere is still included — and the empty
input sequence yields the empty mapping. -/
theorem get_varying_params_keys (jobs : List JobMetadata) (k : String) :
    (lookupList k (get_varying_params jobs) ≠ none ↔
      ∃ j ∈ jobs, lookupList k j.params ≠ none) ∧
    get_varying_params [] = ([] : List (String × List Value)) := by
  refine ⟨?_, rfl⟩
  unfold get_varying_params
  rw [lookupList_map_self]
  have hmem : k ∈ (paramKeysOf jobs).dedup ↔
      ∃ j ∈ jobs, lookupList k j.params ≠ none := by
    rw [List.mem_dedup]
    unfold paramKeysOf
    rw [List.mem_flatten]
    constructor
    · rintro ⟨l, hl, hkl⟩
      rw [List.mem_map] at hl
      obtain ⟨j, hj, rfl⟩ := hl
      refine ⟨j, hj, ?_⟩
      rw [lookupList_ne_none_iff]
      rw [List.mem_map] at hkl
      obtain ⟨p, hp, hpk⟩ := hkl
      exact ⟨p, hp, hpk⟩
    · rintro ⟨j, hj, hne⟩
      rw [lookupList_ne_none_iff] at hne
      obtain ⟨p, hp, hpk⟩ := hne
      refine ⟨j.params.map (fun q => q.1), List.mem_map.mpr ⟨j, hj, rfl⟩, ?_⟩
      exact List.mem_map.mpr ⟨p, hp, hpk⟩
  by_cases hk : k ∈ (paramKeysOf jobs).dedup
  · rw [if_pos hk]
    simp only [ne_eq, reduceCtorEq, not_false_eq_true, true_iff]
    exact hmem.mp hk
  · rw [if_neg hk]
    simp only [ne_eq, not_true_eq_false, false_iff]
    rw [← hmem]
    exact hk

/-- Witness for C10 at a concrete job sequence: the key `x` appears in the
result exactly because some job carries it. -/
theorem get_varying_params_keys_witness :
    (lookupList "x" (get_varying_params [jmW, jmW3]) ≠ none ↔
      ∃ j ∈ [jmW, jmW3], lookupList "x" j.params ≠ none) ∧
    get_varying_params [] = ([] : List (String × List Value)) :=
  get_varying_params_keys [jmW, jmW3] "x"

end Repx
